import Mathlib

/-!
Verification development for the TallyPrime → SQL Server sync tool.

The embedding follows the repository's Python sources:
* `src/temp/samp.py` — hash-tracking persister (`compute_row_hash`,
  `upsert_dataframe`), exporter/normalizer (`send_request`,
  `parse_xml_to_df`), `fetch_master`, `MASTERS`;
* `src/act/main_sync.py` — `fetch_master` (rich request then NAME-only
  fallback), orchestration loop `run_selected`.

External effects (the HTTP transport, the XML library parser, database
statement execution) are embedded as explicit functional state: the
transport and parser are function parameters, the database is an
association list of tables, and every SQL statement the code would issue
is recorded in an effect trace.
-/

namespace TallySync

/-- A cell value: an XML element's text, or SQL NULL / Python `None`. -/
abbrev Val := Option String

/-- A row as pandas stores it: ordered (column name, value) pairs. -/
abbrev Row := List (String × Val)

/-- `str(v) if v is not None else ""` from `compute_row_hash`. -/
def valueStr : Val → String
  | some s => s
  | none => ""

/-- The predicate `not k.startswith("_")` selecting non-metadata fields;
since the prefix tested is the single character `_`, it holds exactly
when the field name does not begin with an underscore. -/
def nonMetaPred (kv : String × Val) : Bool :=
  match kv.1.data with
  | [] => true
  | c :: _ => c != '_'

/-- The joined content string of `compute_row_hash` (samp.py line 111):
`"|".join(str(v) if v is not None else "" for k, v in row.items() if not k.startswith("_"))`. -/
def rowContent (r : Row) : String :=
  String.intercalate "|" ((r.filter nonMetaPred).map (fun kv => valueStr kv.2))

/-- `hashlib.sha1(content.encode("utf-8")).hexdigest()`, modelled as an
injective encoding of the content string.  The code uses the digest only
as a deterministic, collision-free function of the content (rows are
skipped or rewritten according to digest equality), so the model keeps
the content itself; determinism and injectivity are what the proofs use. -/
def sha1Hex (s : String) : String := s

/-- `compute_row_hash` from samp.py (lines 105-112). -/
def compute_row_hash (r : Row) : String :=
  sha1Hex (rowContent r)

/-- Overwrite-or-append assignment on a row, matching assignment into a
pandas Series / Python dict: an existing key keeps its position, a new
key is appended at the end. -/
def setVal (r : Row) (k : String) (v : Val) : Row :=
  if r.any (fun kv => kv.1 == k) then
    r.map (fun kv => if kv.1 == k then (k, v) else kv)
  else
    r ++ [(k, v)]

/-- Read a row's value at a column; a column the row does not carry reads
as SQL NULL. -/
def rowVal (r : Row) (c : String) : Val :=
  match r.find? (fun kv => kv.1 == c) with
  | some kv => kv.2
  | none => none

/-- SQL equality used by `WHERE [NAME] = ?`: NULL compares equal to
nothing, including NULL. -/
def eqSql : Val → Val → Bool
  | some a, some b => a == b
  | _, _ => false

/-- A pandas DataFrame: a column list and the rows. -/
structure DataFrame where
  cols : List String
  rows : List Row
deriving DecidableEq, Repr

/-- `df.empty` in pandas: true when either axis has length zero. -/
def DataFrame.isEmpty (df : DataFrame) : Bool :=
  df.rows.isEmpty || df.cols.isEmpty

/-- First-occurrence deduplication, the column order `pd.DataFrame(rows)`
derives from a list of dicts. -/
def dedupFirst : List String → List String
  | [] => []
  | a :: l => a :: dedupFirst (l.filter (fun b => b ≠ a))
termination_by l => l.length
decreasing_by
  simp only [List.length_cons]
  exact Nat.lt_succ_of_le (List.length_filter_le _ l)

/-- `pd.DataFrame(rows)` for a list of records: columns are the keys in
first-seen order; an empty record list yields an empty column set. -/
def dfOfRecords (rows : List Row) : DataFrame :=
  { cols := dedupFirst (rows.flatMap (fun r => r.map Prod.fst)),
    rows := rows }

/-- Column assignment `df[c] = ...` with a per-row value: overwrites an
existing column, otherwise appends it. -/
def setColF (df : DataFrame) (c : String) (f : Row → Val) : DataFrame :=
  { cols := if c ∈ df.cols then df.cols else df.cols ++ [c],
    rows := df.rows.map (fun r => setVal r c (f r)) }

/-- The metadata block at the head of `upsert_dataframe` (samp.py lines
127-132): compute `_HASH` per row, stamp `_SYNCED_AT`, and default the
identity columns `_ALTERID`/`_GUID`/`_MASTERID` to NULL when absent. -/
def addMetaCols (now : String) (df : DataFrame) : DataFrame :=
  let d1 := setColF df "_HASH" (fun r => some (compute_row_hash r))
  let d2 := setColF d1 "_SYNCED_AT" (fun _ => some now)
  let d3 := if "_ALTERID" ∈ d2.cols then d2 else setColF d2 "_ALTERID" (fun _ => none)
  let d4 := if "_GUID" ∈ d3.cols then d3 else setColF d3 "_GUID" (fun _ => none)
  if "_MASTERID" ∈ d4.cols then d4 else setColF d4 "_MASTERID" (fun _ => none)

/-! ### XML model and the Response Normalizer -/

/-- An `xml.etree.ElementTree` element: tag, text content, children. -/
inductive XmlElem where
  | elem (tag : String) (text : Option String) (children : List XmlElem)

/-- The element's tag. -/
def XmlElem.tagOf : XmlElem → String
  | .elem tg _ _ => tg

/-- The element's text content (`el.text`). -/
def XmlElem.textOf : XmlElem → Option String
  | .elem _ tx _ => tx

/-- The element's direct children. -/
def XmlElem.childrenOf : XmlElem → List XmlElem
  | .elem _ _ ch => ch

mutual

/-- `root.iter(t)`: every element of the subtree (the root included) whose
tag equals `t`, in document order. -/
def iterTag (t : String) : XmlElem → List XmlElem
  | .elem tg tx ch =>
    (if tg = t then [XmlElem.elem tg tx ch] else []) ++ iterTagList t ch

/-- `iterTag` mapped over a child list. -/
def iterTagList (t : String) : List XmlElem → List XmlElem
  | [] => []
  | x :: xs => iterTag t x ++ iterTagList t xs

end

/-- `element.find(t)`: the first direct child with tag `t`. -/
def findChild (t : String) (e : XmlElem) : Option XmlElem :=
  e.childrenOf.find? (fun c => c.tagOf == t)

/-- Control characters removed by the first `re.sub` of `parse_xml_to_df`:
the ranges `\x00-\x08`, `\x0B-\x0C`, `\x0E-\x1F`. -/
def isStrippedCtl (c : Char) : Bool :=
  c.toNat ≤ 0x08 || c.toNat == 0x0B || c.toNat == 0x0C ||
    (0x0E ≤ c.toNat && c.toNat ≤ 0x1F)

/-- First sanitization step: strip illegal control characters. -/
def stripCtlChars (s : String) : String :=
  String.mk (s.toList.filter (fun c => !isStrippedCtl c))

/-- The recognized entity tails of the negative lookahead in
`re.sub(r"&(?!(amp;|lt;|gt;|apos;|quot;))", "&amp;", xml)`. -/
def entityTails : List (List Char) :=
  ["amp;".toList, "lt;".toList, "gt;".toList, "apos;".toList, "quot;".toList]

/-- Second sanitization step on the character list: an `&` not followed by
a recognized entity tail is replaced by `&amp;`; the lookahead consumes
nothing, so the following characters are processed unchanged. -/
def fixAmpChars : List Char → List Char
  | [] => []
  | c :: rest =>
    if c = '&' then
      if entityTails.any (fun t => t.isPrefixOf rest) then
        '&' :: fixAmpChars rest
      else
        '&' :: 'a' :: 'm' :: 'p' :: ';' :: fixAmpChars rest
    else
      c :: fixAmpChars rest

/-- The sanitization applied before `ET.fromstring` (samp.py lines 212-213). -/
def sanitizeXml (s : String) : String :=
  String.mk (fixAmpChars (stripCtlChars s).toList)

/-- The dict built per record instance: `row[tag] = el.text if el is not
None else None` for each requested tag. -/
def rowOfChild (tags : List String) (child : XmlElem) : Row :=
  tags.foldl (fun r tag => setVal r tag ((findChild tag child).bind XmlElem.textOf)) []

/-- `parse_xml_to_df` from samp.py lines 205-226 / main_sync.py lines
132-148.  The library call `ET.fromstring` is the `fromstring` parameter:
it receives the sanitized text and either returns the root element or
fails (raises).  The `try`/`except` makes the function total: a parse
failure yields `pd.DataFrame(columns=tags)`, an empty batch carrying the
requested columns. -/
def parse_xml_to_df (fromstring : String → Except String XmlElem)
    (xml : String) (tags : List String) : DataFrame :=
  match fromstring (sanitizeXml xml) with
  | .error _ => { cols := tags, rows := [] }
  | .ok root =>
      dfOfRecords
        ((iterTag "COLLECTION" root).flatMap
          (fun obj => obj.childrenOf.map (rowOfChild tags)))

/-! ### Source Exporter -/

/-- `send_request` from main_sync.py lines 124-130 / samp.py lines
194-203.  The `requests.post(...).text` call is the `transport`
parameter: success yields the raw response body, any transport exception
is caught and replaced by the empty string. -/
def send_request (transport : String → Except String String) (xml : String) : String :=
  match transport xml with
  | .ok body => body
  | .error _ => ""

/-- The rich export envelope `xml_full` of main_sync.py `fetch_master`
(lines 151-167); the surrounding indentation whitespace of the Python
f-string is elided. -/
def xmlEnvelopeFull (master : String) : String :=
  "<ENVELOPE><HEADER><VERSION>1</VERSION><TALLYREQUEST>Export</TALLYREQUEST>" ++
  "<TYPE>Collection</TYPE><ID>List of " ++ master ++ "s</ID></HEADER>" ++
  "<BODY><DESC><STATICVARIABLES><SVEXPORTFORMAT>$$SysName:XML</SVEXPORTFORMAT>" ++
  "</STATICVARIABLES></DESC></BODY></ENVELOPE>"

/-- The minimal fallback envelope `xml_edu` of main_sync.py `fetch_master`
(lines 174-194): the type-specific alternate identifier `Edu{master}List`
fetching only NAME; indentation whitespace elided. -/
def xmlEnvelopeEdu (master : String) : String :=
  "<ENVELOPE><HEADER><VERSION>1</VERSION><TALLYREQUEST>Export</TALLYREQUEST>" ++
  "<TYPE>Data</TYPE><ID>Edu" ++ master ++ "List</ID></HEADER>" ++
  "<BODY><DESC><TDL><TDLMESSAGE><COLLECTION NAME=\"Edu" ++ master ++
  "List\" TYPE=\"" ++ master ++ "\"><FETCH>NAME</FETCH></COLLECTION>" ++
  "</TDLMESSAGE></TDL></DESC></BODY></ENVELOPE>"

/-- `fetch_master` from main_sync.py lines 150-198.  Besides the batch it
returns the list of requests actually sent, in order: the rich request is
always issued first; the minimal fallback is issued exactly when the rich
batch is empty. -/
def fetch_master (transport : String → Except String String)
    (fromstring : String → Except String XmlElem)
    (master : String) (full_fields : List String) : DataFrame × List String :=
  let req1 := xmlEnvelopeFull master
  let df := parse_xml_to_df fromstring (send_request transport req1) full_fields
  if !df.isEmpty then
    (df, [req1])
  else
    let req2 := xmlEnvelopeEdu master
    let df2 := parse_xml_to_df fromstring (send_request transport req2) ["NAME"]
    (df2, [req1, req2])

/-! ### Change-Aware Persister -/

/-- A destination table: column list and stored rows in physical order. -/
structure Table where
  cols : List String
  rows : List Row
deriving DecidableEq, Repr

/-- The destination database: an association list from table name to table. -/
abbrev DB := List (String × Table)

/-- Look up a table by name. -/
def getTable (db : DB) (t : String) : Option Table :=
  (db.find? (fun p => p.1 == t)).map Prod.snd

/-- Store a table under a name: replace every entry carrying the name, or
append a fresh entry when none exists. -/
def putTable (db : DB) (t : String) (tbl : Table) : DB :=
  if db.any (fun p => p.1 == t) then
    db.map (fun p => if p.1 == t then (t, tbl) else p)
  else
    db ++ [(t, tbl)]

/-- The column type every DDL statement of `upsert_dataframe` uses. -/
def sqlTextType : String := "NVARCHAR(MAX)"

/-- One effect per statement (or logged warning) `upsert_dataframe`
issues against the connection. -/
inductive Eff where
  | warnEmpty (t : String)
  | createTableIfAbsent (t : String) (cols : List String) (ty : String)
  | alterAddColumn (t : String) (c : String) (ty : String)
  | ensureIndexes (t : String)
  | selectHash (t : String) (name : Val)
  | insertRow (t : String) (r : Row)
  | updateRow (t : String) (name : Val)
deriving DecidableEq, Repr

/-- Recognizer for `UPDATE` statements in an effect trace. -/
def isUpdateEff : Eff → Bool
  | .updateRow _ _ => true
  | _ => false

/-- Recognizer for `ALTER TABLE ... ADD` statements in an effect trace. -/
def isAlterEff : Eff → Bool
  | .alterAddColumn _ _ _ => true
  | _ => false

/-- `SELECT _HASH FROM [t] WHERE [NAME] = ?` with `fetchone()`: the first
stored row whose NAME column SQL-equals the parameter. -/
def sqlSelectFirst (tbl : Table) (name : Val) : Option Row :=
  tbl.rows.find? (fun sr => eqSql (rowVal sr "NAME") name)

/-- The `UPDATE` statement of samp.py lines 182-186 applied to one stored
row: every batch column except `_SYNCED_AT` is set from the batch row,
then `_SYNCED_AT` is set to the current timestamp. -/
def updateStoredRow (cols : List String) (br : Row) (now : String) (sr : Row) : Row :=
  setVal
    ((cols.filter (fun c => c != "_SYNCED_AT")).foldl
      (fun acc c => setVal acc c (rowVal br c)) sr)
    "_SYNCED_AT" (some now)

/-- One iteration of the row loop of `upsert_dataframe` (samp.py lines
167-188): select the stored hash by NAME; insert when absent; update
every NAME-matching stored row when the hash differs; skip otherwise. -/
def upsertRowStep (t : String) (cols : List String) (now : String)
    (acc : Table × List Eff) (br : Row) : Table × List Eff :=
  let tbl := acc.1
  let effs := acc.2 ++ [Eff.selectHash t (rowVal br "NAME")]
  match sqlSelectFirst tbl (rowVal br "NAME") with
  | none =>
      let newRow := cols.map (fun c => (c, rowVal br c))
      ({ tbl with rows := tbl.rows ++ [newRow] }, effs ++ [Eff.insertRow t newRow])
  | some sr =>
      if rowVal sr "_HASH" != rowVal br "_HASH" then
        ({ tbl with
            rows := tbl.rows.map (fun r =>
              if eqSql (rowVal r "NAME") (rowVal br "NAME") then
                updateStoredRow cols br now r
              else r) },
         effs ++ [Eff.updateRow t (rowVal br "NAME")])
      else
        (tbl, effs)

/-- `upsert_dataframe` from samp.py lines 115-191 (the hash-tracking
persister variant, the one §4.3 of the design documents).  Empty batches
are skipped with a warning; otherwise the metadata columns are added, the
table is created when absent, missing columns are added as text columns,
the NAME/`_HASH` indexes are ensured, and the rows are reconciled one by
one.  Returns the new database and the trace of issued statements. -/
def upsert_dataframe (now : String) (df0 : DataFrame) (t : String) (db : DB) :
    DB × List Eff :=
  if df0.isEmpty then
    (db, [Eff.warnEmpty t])
  else
    let df := addMetaCols now df0
    let effs0 := [Eff.createTableIfAbsent t df.cols sqlTextType]
    let dbtbl :=
      match getTable db t with
      | some tbl => (db, tbl)
      | none =>
          let tbl : Table := { cols := df.cols, rows := [] }
          (putTable db t tbl, tbl)
    let db1 := dbtbl.1
    let tbl0 := dbtbl.2
    let missing := df.cols.filter (fun c => !tbl0.cols.contains c)
    let tbl1 : Table := { tbl0 with cols := tbl0.cols ++ missing }
    let effs1 := missing.map (fun c => Eff.alterAddColumn t c sqlTextType)
    let effs2 := [Eff.ensureIndexes t]
    let finish := df.rows.foldl (upsertRowStep t df.cols now) (tbl1, [])
    (putTable db1 t finish.1, effs0 ++ effs1 ++ effs2 ++ finish.2)

/-! ### Record-Set Catalog and Sync Orchestrator -/

/-- The `MASTERS` registry (main_sync.py lines 201-226). -/
def MASTERS : List (String × List String) :=
  [("Ledger", ["NAME", "PARENT", "OPENINGBALANCE"]),
   ("Group", ["NAME", "PARENT", "ISSUBLEDGER"]),
   ("VoucherType", ["NAME", "PARENT", "NUMBERINGMETHOD"]),
   ("Currency", ["NAME", "ORIGINALNAME", "ISDAILYRATE"]),
   ("Budget", ["NAME", "PARENT"]),
   ("Scenario", ["NAME", "PARENT"]),
   ("CostCentre", ["NAME", "PARENT"]),
   ("CostCategory", ["NAME"]),
   ("InterestCollection", ["NAME"]),
   ("StockGroup", ["NAME", "PARENT"]),
   ("StockCategory", ["NAME", "PARENT"]),
   ("StockItem", ["NAME", "PARENT", "BASEUNITS"]),
   ("Unit", ["NAME", "GSTREPUOM"]),
   ("Godown", ["NAME", "PARENT"]),
   ("Batch", ["NAME"]),
   ("VoucherClass", ["NAME"]),
   ("EmployeeGroup", ["NAME"]),
   ("Employee", ["NAME", "EMPLOYEEID"]),
   ("AttendanceType", ["NAME", "ATTENDANCETYPE"]),
   ("PayHead", ["NAME", "PARENT"]),
   ("SalaryDetails", ["NAME"]),
   ("Company", ["NAME", "STARTINGFROM"]),
   ("SecurityControl", ["NAME"]),
   ("StatutoryFeature", ["NAME"])]

/-- `MASTERS.get(master, ["NAME"])` from `run_selected`. -/
def mastersFields (m : String) : List String :=
  ((MASTERS.find? (fun p => p.1 == m)).map Prod.snd).getD ["NAME"]

/-- `run_selected` from main_sync.py lines 299-308.  The loop body —
`fetch_master` followed by `upsert_dataframe` against the shared live
connection, either of which may raise (row-write failures, key errors,
connection loss) — is the `syncOne` parameter.  The loop wraps no
statement in `try`/`except`, so the embedding records which masters the
loop reached and the first uncaught exception, which propagates to the
caller; the function itself returns `None` (no outcome report). -/
def run_selected (syncOne : String → List String → Except String Nat) :
    List String → List String × Option String
  | [] => ([], none)
  | m :: rest =>
    match syncOne m (mastersFields m) with
    | .ok _ =>
        let r := run_selected syncOne rest
        (m :: r.1, r.2)
    | .error e => ([m], some e)

/-! ### Concrete sample inputs used by the evaluation witnesses -/

/-- A batch holding two rows that share the NAME "Cash" but differ in
PARENT — a legal Tabular Batch (nothing deduplicates parsed rows). -/
def dupNameBatch : DataFrame :=
  { cols := ["NAME", "PARENT"],
    rows := [[("NAME", some "Cash"), ("PARENT", some "Assets")],
             [("NAME", some "Cash"), ("PARENT", some "Loans")]] }

/-- A batch of two rows with distinct, non-NULL NAME values. -/
def twoLedgerBatch : DataFrame :=
  { cols := ["NAME", "PARENT"],
    rows := [[("NAME", some "Cash"), ("PARENT", some "Assets")],
             [("NAME", some "Bank"), ("PARENT", some "Assets")]] }

/-- A one-row batch carrying a column (OPENINGBALANCE) that the sample
destination table `demoDb` does not yet have. -/
def widerBatch : DataFrame :=
  { cols := ["NAME", "OPENINGBALANCE"],
    rows := [[("NAME", some "Cash"), ("OPENINGBALANCE", some "1000")]] }

/-- A sample destination database: one Ledger table with a NAME column
and a single stored row. -/
def demoDb : DB :=
  [("Ledger", { cols := ["NAME"], rows := [[("NAME", some "Cash")]] })]

/-- A well-formed response tree whose single COLLECTION node holds zero
record instances. -/
def demoEmptyRoot : XmlElem :=
  XmlElem.elem "ENVELOPE" none [XmlElem.elem "COLLECTION" none []]

/-! ## Auxiliary lemmas -/

theorem rowVal_nil (k : String) : rowVal [] k = none := rfl

theorem findConsPos {α : Type} (p : α → Bool) (a : α) (l : List α) (h : p a = true) :
    (a :: l).find? p = some a :=
  List.find?_cons_of_pos l h

theorem findConsNeg {α : Type} (p : α → Bool) (a : α) (l : List α) (h : p a = false) :
    (a :: l).find? p = l.find? p :=
  List.find?_cons_of_neg l (by simp [h])

theorem setValMap_find_self {β : Type} (r : List (String × β)) (k : String) (v : β)
    (hany : r.any (fun kv => kv.1 == k) = true) :
    (r.map (fun kv => if kv.1 == k then (k, v) else kv)).find?
      (fun kv => kv.1 == k) = some (k, v) := by
  induction r with
  | nil => simp at hany
  | cons kv r ih =>
    rw [List.map_cons]
    by_cases h1 : (kv.1 == k) = true
    · rw [if_pos h1]
      exact findConsPos (fun kv => kv.1 == k) (k, v) _ (beq_self_eq_true k)
    · have h1b : (kv.1 == k) = false := by
        cases hx : (kv.1 == k) with
        | false => rfl
        | true => exact absurd hx h1
      have hany' : r.any (fun kv => kv.1 == k) = true := by
        rw [List.any_cons, h1b, Bool.false_or] at hany
        exact hany
      rw [if_neg h1, findConsNeg (fun kv => kv.1 == k) kv _ h1b]
      exact ih hany'

theorem setValMap_find_ne {β : Type} (r : List (String × β)) (k k' : String) (v : β) (h : k' ≠ k) :
    (r.map (fun kv => if kv.1 == k then (k, v) else kv)).find?
      (fun kv => kv.1 == k') = r.find? (fun kv => kv.1 == k') := by
  induction r with
  | nil => rfl
  | cons kv r ih =>
    rw [List.map_cons]
    have hkk' : (k == k') = false := beq_eq_false_iff_ne.mpr (Ne.symm h)
    by_cases h1 : (kv.1 == k) = true
    · have h1k' : (kv.1 == k') = false := by
        rw [beq_iff_eq.mp h1]
        exact hkk'
      rw [if_pos h1]
      rw [findConsNeg (fun kv => kv.1 == k') ((k, v) : String × β) _ hkk']
      rw [findConsNeg (fun kv => kv.1 == k') kv _ h1k']
      exact ih
    · rw [if_neg h1]
      by_cases h2 : (kv.1 == k') = true
      · rw [findConsPos (fun kv => kv.1 == k') kv _ h2,
            findConsPos (fun kv => kv.1 == k') kv _ h2]
      · have h2b : (kv.1 == k') = false := by
          cases hx : (kv.1 == k') with
          | false => rfl
          | true => exact absurd hx h2
        rw [findConsNeg (fun kv => kv.1 == k') kv _ h2b,
            findConsNeg (fun kv => kv.1 == k') kv _ h2b]
        exact ih

theorem append_find_self {β : Type} (r : List (String × β)) (k : String) (v : β)
    (hany : r.any (fun kv => kv.1 == k) = false) :
    (r ++ [(k, v)]).find? (fun kv => kv.1 == k) = some (k, v) := by
  induction r with
  | nil => exact findConsPos (fun kv => kv.1 == k) (k, v) _ (beq_self_eq_true k)
  | cons kv r ih =>
    have h1 : (kv.1 == k) = false := by
      cases hx : (kv.1 == k) with
      | false => rfl
      | true => simp [List.any_cons, hx] at hany
    have hany' : r.any (fun kv => kv.1 == k) = false := by
      rw [List.any_cons, h1, Bool.false_or] at hany
      exact hany
    rw [List.cons_append, findConsNeg (fun kv => kv.1 == k) kv _ h1]
    exact ih hany'

theorem append_find_ne {β : Type} (r : List (String × β)) (k k' : String) (v : β) (h : k' ≠ k) :
    (r ++ [(k, v)]).find? (fun kv => kv.1 == k') = r.find? (fun kv => kv.1 == k') := by
  induction r with
  | nil =>
    have hkk' : (k == k') = false := beq_eq_false_iff_ne.mpr (Ne.symm h)
    rw [List.nil_append, findConsNeg (fun kv => kv.1 == k') (k, v) _ hkk']
  | cons kv r ih =>
    by_cases h2 : (kv.1 == k') = true
    · rw [List.cons_append, findConsPos (fun kv => kv.1 == k') kv _ h2,
          findConsPos (fun kv => kv.1 == k') kv _ h2]
    · have h2b : (kv.1 == k') = false := by
        cases hx : (kv.1 == k') with
        | false => rfl
        | true => exact absurd hx h2
      rw [List.cons_append, findConsNeg (fun kv => kv.1 == k') kv _ h2b,
          findConsNeg (fun kv => kv.1 == k') kv _ h2b]
      exact ih

theorem rowVal_setVal_self (r : Row) (k : String) (v : Val) :
    rowVal (setVal r k v) k = v := by
  unfold rowVal
  cases hany : r.any (fun kv => kv.1 == k) with
  | false =>
    have hs : setVal r k v = r ++ [(k, v)] := by simp [setVal, hany]
    rw [hs, append_find_self r k v hany]
  | true =>
    have hs : setVal r k v = r.map (fun kv => if kv.1 == k then (k, v) else kv) := by
      simp [setVal, hany]
    rw [hs, setValMap_find_self r k v hany]

theorem rowVal_setVal_ne (r : Row) (k k' : String) (v : Val) (h : k' ≠ k) :
    rowVal (setVal r k v) k' = rowVal r k' := by
  unfold rowVal
  cases hany : r.any (fun kv => kv.1 == k) with
  | false =>
    have hs : setVal r k v = r ++ [(k, v)] := by simp [setVal, hany]
    rw [hs, append_find_ne r k k' v h]
  | true =>
    have hs : setVal r k v = r.map (fun kv => if kv.1 == k then (k, v) else kv) := by
      simp [setVal, hany]
    rw [hs, setValMap_find_ne r k k' v h]

theorem rowVal_foldl_assign (br : Row) (k : String) (cs : List String) (sr : Row) :
    rowVal (cs.foldl (fun acc c => setVal acc c (rowVal br c)) sr) k =
      if k ∈ cs then rowVal br k else rowVal sr k := by
  induction cs generalizing sr with
  | nil => simp
  | cons c cs ih =>
    rw [List.foldl_cons, ih]
    by_cases hk : k ∈ cs
    · simp [hk, List.mem_cons]
    · by_cases hkc : k = c
      · subst hkc
        simp [hk, rowVal_setVal_self]
      · simp [hk, hkc, rowVal_setVal_ne sr c k (rowVal br c) hkc]

theorem rowVal_mapRow (cols : List String) (br : Row) (k : String) :
    rowVal (cols.map (fun c => (c, rowVal br c))) k =
      if k ∈ cols then rowVal br k else none := by
  induction cols with
  | nil => simp [rowVal_nil]
  | cons c cs ih =>
    by_cases hkc : k = c
    · subst hkc
      simp [rowVal, List.find?_cons]
    · unfold rowVal
      rw [List.map_cons, List.find?_cons]
      have : ((c, rowVal br c).1 == k) = false := beq_eq_false_iff_ne.mpr (Ne.symm hkc)
      simp only [this]
      unfold rowVal at ih
      rw [ih]
      simp [List.mem_cons, hkc]

theorem rowVal_updateStoredRow (cols : List String) (br : Row) (now : String) (sr : Row)
    (k : String) :
    rowVal (updateStoredRow cols br now sr) k =
      if k = "_SYNCED_AT" then some now
      else if k ∈ cols then rowVal br k else rowVal sr k := by
  unfold updateStoredRow
  by_cases hk : k = "_SYNCED_AT"
  · subst hk
    simp [rowVal_setVal_self]
  · rw [rowVal_setVal_ne _ _ _ _ hk, rowVal_foldl_assign]
    have : (k ∈ cols.filter (fun c => c != "_SYNCED_AT")) ↔ k ∈ cols := by
      simp [List.mem_filter, bne_iff_ne, hk]
    simp [hk, this]

theorem eqSql_true_iff (u v : Val) :
    eqSql u v = true ↔ ∃ s, u = some s ∧ v = some s := by
  cases u with
  | none => simp [eqSql]
  | some a =>
    cases v with
    | none => simp [eqSql]
    | some b =>
      simp only [eqSql, beq_iff_eq, Option.some.injEq]
      constructor
      · intro hab
        exact ⟨a, rfl, hab.symm⟩
      · rintro ⟨s, h1, h2⟩
        rw [h1, h2]

theorem getTable_putTable_self (db : DB) (t : String) (tbl : Table) :
    getTable (putTable db t tbl) t = some tbl := by
  cases hany : db.any (fun p => p.1 == t) with
  | false =>
    have hs : putTable db t tbl = db ++ [(t, tbl)] := by simp [putTable, hany]
    unfold getTable
    rw [hs, append_find_self db t tbl hany]
    rfl
  | true =>
    have hs : putTable db t tbl = db.map (fun p => if p.1 == t then (t, tbl) else p) := by
      simp [putTable, hany]
    unfold getTable
    rw [hs, setValMap_find_self db t tbl hany]
    rfl

theorem putTable_mem_eq (db : DB) (t : String) (tbl : Table) :
    ∀ p ∈ putTable db t tbl, p.1 = t → p = (t, tbl) := by
  intro p hp hpt
  cases hany : db.any (fun q => q.1 == t) with
  | false =>
    have hs : putTable db t tbl = db ++ [(t, tbl)] := by simp [putTable, hany]
    rw [hs] at hp
    rcases List.mem_append.mp hp with h | h
    · exfalso
      have hcon : db.any (fun q => q.1 == t) = true :=
        List.any_eq_true.mpr ⟨p, h, beq_iff_eq.mpr hpt⟩
      rw [hany] at hcon
      exact Bool.false_ne_true hcon
    · exact List.mem_singleton.mp h
  | true =>
    have hs : putTable db t tbl = db.map (fun q => if q.1 == t then (t, tbl) else q) := by
      simp [putTable, hany]
    rw [hs] at hp
    rcases List.mem_map.mp hp with ⟨q, hq, hfq⟩
    by_cases hqt : (q.1 == t) = true
    · rw [if_pos hqt] at hfq
      exact hfq.symm
    · rw [if_neg hqt] at hfq
      rw [← hfq] at hpt
      exact absurd (beq_iff_eq.mpr hpt) hqt

theorem putTable_eq_self (db : DB) (t : String) (tbl : Table)
    (hall : ∀ p ∈ db, p.1 = t → p = (t, tbl))
    (hex : db.any (fun p => p.1 == t) = true) :
    putTable db t tbl = db := by
  have hs : putTable db t tbl = db.map (fun q => if q.1 == t then (t, tbl) else q) := by
    simp [putTable, hex]
  have hid : db.map (fun q => if q.1 == t then (t, tbl) else q) = db.map id := by
    apply List.map_congr_left
    intro q hq
    by_cases hqt : (q.1 == t) = true
    · rw [if_pos hqt]
      exact (hall q hq (beq_iff_eq.mp hqt)).symm
    · rw [if_neg hqt]
      rfl
  rw [hs, hid, List.map_id]

theorem updateStoredRow_name (cols : List String) (br : Row) (now : String) (sr : Row)
    (hmatch : eqSql (rowVal sr "NAME") (rowVal br "NAME") = true) :
    rowVal (updateStoredRow cols br now sr) "NAME" = rowVal sr "NAME" := by
  rw [rowVal_updateStoredRow]
  have hne : "NAME" ≠ "_SYNCED_AT" := by decide
  rw [if_neg hne]
  by_cases hmem : "NAME" ∈ cols
  · rw [if_pos hmem]
    rcases (eqSql_true_iff _ _).mp hmatch with ⟨s, h1, h2⟩
    rw [h1, h2]
  · rw [if_neg hmem]

theorem upsertRowStep_cols (t : String) (cols : List String) (now : String)
    (acc : Table × List Eff) (br : Row) :
    (upsertRowStep t cols now acc br).1.cols = acc.1.cols := by
  cases hsel : sqlSelectFirst acc.1 (rowVal br "NAME") with
  | none =>
    unfold upsertRowStep
    simp only [hsel]
  | some sr =>
    unfold upsertRowStep
    simp only [hsel]
    by_cases hh : (rowVal sr "_HASH" != rowVal br "_HASH") = true
    · rw [if_pos hh]
    · rw [if_neg hh]

theorem upsertRowStep_rows_le (t : String) (cols : List String) (now : String)
    (acc : Table × List Eff) (br : Row) :
    acc.1.rows.length ≤ (upsertRowStep t cols now acc br).1.rows.length := by
  cases hsel : sqlSelectFirst acc.1 (rowVal br "NAME") with
  | none =>
    unfold upsertRowStep
    simp only [hsel]
    simp
  | some sr =>
    unfold upsertRowStep
    simp only [hsel]
    by_cases hh : (rowVal sr "_HASH" != rowVal br "_HASH") = true
    · rw [if_pos hh]
      simp
    · rw [if_neg hh]

theorem upsertRowStep_name_at (t : String) (cols : List String) (now : String)
    (acc : Table × List Eff) (br : Row) (i : Nat)
    (h : i < acc.1.rows.length)
    (h' : i < (upsertRowStep t cols now acc br).1.rows.length) :
    rowVal ((upsertRowStep t cols now acc br).1.rows[i]) "NAME" =
      rowVal (acc.1.rows[i]) "NAME" := by
  cases hsel : sqlSelectFirst acc.1 (rowVal br "NAME") with
  | none =>
    have heq : (upsertRowStep t cols now acc br).1.rows =
        acc.1.rows ++ [cols.map (fun c => (c, rowVal br c))] := by
      unfold upsertRowStep
      simp only [hsel]
    have hget : (upsertRowStep t cols now acc br).1.rows[i] = acc.1.rows[i] := by
      simp only [heq]
      exact List.getElem_append_left h
    rw [hget]
  | some sr =>
    by_cases hh : (rowVal sr "_HASH" != rowVal br "_HASH") = true
    · have heq : (upsertRowStep t cols now acc br).1.rows =
          acc.1.rows.map (fun r =>
            if eqSql (rowVal r "NAME") (rowVal br "NAME") then
              updateStoredRow cols br now r
            else r) := by
        unfold upsertRowStep
        simp only [hsel]
        rw [if_pos hh]
      have hget : (upsertRowStep t cols now acc br).1.rows[i] =
          if eqSql (rowVal (acc.1.rows[i]) "NAME") (rowVal br "NAME") then
            updateStoredRow cols br now (acc.1.rows[i])
          else acc.1.rows[i] := by
        simp only [heq]
        exact List.getElem_map _
      rw [hget]
      by_cases hm : eqSql (rowVal (acc.1.rows[i]) "NAME") (rowVal br "NAME") = true
      · rw [if_pos hm]
        exact updateStoredRow_name cols br now _ hm
      · rw [if_neg hm]
    · have heq : (upsertRowStep t cols now acc br).1.rows = acc.1.rows := by
        unfold upsertRowStep
        simp only [hsel]
        rw [if_neg hh]
      have hget : (upsertRowStep t cols now acc br).1.rows[i] = acc.1.rows[i] := by
        simp only [heq]
      rw [hget]

theorem upsertRowStep_effs_alter (t : String) (cols : List String) (now : String)
    (acc : Table × List Eff) (br : Row) :
    (upsertRowStep t cols now acc br).2.filter isAlterEff = acc.2.filter isAlterEff := by
  cases hsel : sqlSelectFirst acc.1 (rowVal br "NAME") with
  | none =>
    unfold upsertRowStep
    simp only [hsel]
    simp [List.filter_append, isAlterEff]
  | some sr =>
    unfold upsertRowStep
    simp only [hsel]
    by_cases hh : (rowVal sr "_HASH" != rowVal br "_HASH") = true
    · rw [if_pos hh]
      simp [List.filter_append, isAlterEff]
    · rw [if_neg hh]
      simp [List.filter_append, isAlterEff]

theorem foldRows_frame (t : String) (cols : List String) (now : String)
    (rows : List Row) (tbl : Table) (effs : List Eff) :
    ((rows.foldl (upsertRowStep t cols now) (tbl, effs)).1.cols = tbl.cols) ∧
    (tbl.rows.length ≤ (rows.foldl (upsertRowStep t cols now) (tbl, effs)).1.rows.length) ∧
    (∀ i, (h : i < tbl.rows.length) →
      (h' : i < (rows.foldl (upsertRowStep t cols now) (tbl, effs)).1.rows.length) →
      rowVal ((rows.foldl (upsertRowStep t cols now) (tbl, effs)).1.rows[i]) "NAME" =
        rowVal (tbl.rows[i]) "NAME") ∧
    ((rows.foldl (upsertRowStep t cols now) (tbl, effs)).2.filter isAlterEff =
      effs.filter isAlterEff) := by
  induction rows generalizing tbl effs with
  | nil =>
    refine ⟨rfl, Nat.le_refl _, fun i h h' => rfl, rfl⟩
  | cons br rows ih =>
    rw [List.foldl_cons]
    have hstep := upsertRowStep_cols t cols now (tbl, effs) br
    have hlen := upsertRowStep_rows_le t cols now (tbl, effs) br
    have heff := upsertRowStep_effs_alter t cols now (tbl, effs) br
    have hacc : upsertRowStep t cols now (tbl, effs) br =
        ((upsertRowStep t cols now (tbl, effs) br).1,
         (upsertRowStep t cols now (tbl, effs) br).2) := rfl
    rw [hacc]
    obtain ⟨ihc, ihl, ihn, ihe⟩ := ih (upsertRowStep t cols now (tbl, effs) br).1
      (upsertRowStep t cols now (tbl, effs) br).2
    refine ⟨ihc.trans hstep, Nat.le_trans hlen ihl, ?_, ihe.trans heff⟩
    intro i h h'
    have h2 : i < (upsertRowStep t cols now (tbl, effs) br).1.rows.length :=
      Nat.lt_of_lt_of_le h hlen
    exact (ihn i h2 h').trans (upsertRowStep_name_at t cols now (tbl, effs) br i h h2)

theorem upsert_dataframe_eq_some (now : String) (df0 : DataFrame) (t : String) (db : DB)
    (T : Table) (hne : df0.isEmpty = false) (hT : getTable db t = some T) :
    upsert_dataframe now df0 t db =
      (putTable db t
        ((addMetaCols now df0).rows.foldl
          (upsertRowStep t (addMetaCols now df0).cols now)
          ({ cols := T.cols ++
               (addMetaCols now df0).cols.filter (fun c => !T.cols.contains c),
             rows := T.rows }, [])).1,
       [Eff.createTableIfAbsent t (addMetaCols now df0).cols sqlTextType] ++
         ((addMetaCols now df0).cols.filter (fun c => !T.cols.contains c)).map
           (fun c => Eff.alterAddColumn t c sqlTextType) ++
         [Eff.ensureIndexes t] ++
         ((addMetaCols now df0).rows.foldl
           (upsertRowStep t (addMetaCols now df0).cols now)
           ({ cols := T.cols ++
                (addMetaCols now df0).cols.filter (fun c => !T.cols.contains c),
              rows := T.rows }, [])).2) := by
  unfold upsert_dataframe
  rw [if_neg (by simp [hne])]
  simp only [hT]

/-- The (NAME, `_HASH`) profile of a row — the only data the skip
decision of the reconciliation loop reads. -/
def rowProfile (br : Row) : Val × Val :=
  (rowVal br "NAME", rowVal br "_HASH")

theorem setColF_cols (d : DataFrame) (c : String) (f : Row → Val) :
    (setColF d c f).cols = if c ∈ d.cols then d.cols else d.cols ++ [c] := rfl

theorem condSetColF_cols (d : DataFrame) (b : Prop) [Decidable b] (c : String)
    (f : Row → Val) :
    (if b then d else setColF d c f).cols =
      if b then d.cols else (if c ∈ d.cols then d.cols else d.cols ++ [c]) := by
  by_cases hb : b
  · rw [if_pos hb, if_pos hb]
  · rw [if_neg hb, if_neg hb, setColF_cols]

theorem condSetColF_profile (d : DataFrame) (b : Prop) [Decidable b] (c : String)
    (f : Row → Val) (hcN : c ≠ "NAME") (hcH : c ≠ "_HASH") :
    ((if b then d else setColF d c f).rows.map rowProfile) = d.rows.map rowProfile := by
  by_cases hb : b
  · rw [if_pos hb]
  · rw [if_neg hb]
    show ((d.rows.map (fun r => setVal r c (f r))).map rowProfile) = d.rows.map rowProfile
    rw [List.map_map]
    apply List.map_congr_left
    intro r _
    show rowProfile (setVal r c (f r)) = rowProfile r
    unfold rowProfile
    rw [rowVal_setVal_ne r c "NAME" (f r) (Ne.symm hcN),
        rowVal_setVal_ne r c "_HASH" (f r) (Ne.symm hcH)]

theorem setColF_cols_congr (d1 d2 : DataFrame) (c : String) (f1 f2 : Row → Val)
    (h : d1.cols = d2.cols) : (setColF d1 c f1).cols = (setColF d2 c f2).cols := by
  unfold setColF
  rw [h]

theorem condSetColF_cols_congr (d1 d2 : DataFrame) (c : String) (f1 f2 : Row → Val)
    (h : d1.cols = d2.cols) :
    (if c ∈ d1.cols then d1 else setColF d1 c f1).cols =
      (if c ∈ d2.cols then d2 else setColF d2 c f2).cols := by
  by_cases hb : c ∈ d1.cols
  · rw [if_pos hb, if_pos (h ▸ hb)]
    exact h
  · rw [if_neg hb, if_neg (h ▸ hb)]
    exact setColF_cols_congr d1 d2 c f1 f2 h

theorem addMetaCols_cols_now (now1 now2 : String) (df : DataFrame) :
    (addMetaCols now1 df).cols = (addMetaCols now2 df).cols := by
  simp only [addMetaCols]
  apply condSetColF_cols_congr
  apply condSetColF_cols_congr
  apply condSetColF_cols_congr
  apply setColF_cols_congr
  apply setColF_cols_congr
  rfl

theorem mem_setColF_cols (d : DataFrame) (c0 c : String) (f : Row → Val)
    (h : c ∈ d.cols) : c ∈ (setColF d c0 f).cols := by
  unfold setColF
  by_cases hc : c0 ∈ d.cols
  · rw [if_pos hc]
    exact h
  · rw [if_neg hc]
    exact List.mem_append_left _ h

theorem self_mem_setColF_cols (d : DataFrame) (c0 : String) (f : Row → Val) :
    c0 ∈ (setColF d c0 f).cols := by
  unfold setColF
  by_cases hc : c0 ∈ d.cols
  · rw [if_pos hc]
    exact hc
  · rw [if_neg hc]
    exact List.mem_append_right _ (List.mem_singleton.mpr rfl)

theorem mem_condSetColF_cols (b : Prop) [Decidable b] (d : DataFrame) (c0 c : String)
    (f : Row → Val) (h : c ∈ d.cols) :
    c ∈ (if b then d else setColF d c0 f).cols := by
  by_cases hb : b
  · rw [if_pos hb]
    exact h
  · rw [if_neg hb]
    exact mem_setColF_cols d c0 c f h

theorem mem_addMetaCols_cols (now : String) (df : DataFrame) (c : String)
    (h : c ∈ df.cols) : c ∈ (addMetaCols now df).cols := by
  simp only [addMetaCols]
  apply mem_condSetColF_cols
  apply mem_condSetColF_cols
  apply mem_condSetColF_cols
  apply mem_setColF_cols
  apply mem_setColF_cols
  exact h

theorem hash_mem_addMetaCols_cols (now : String) (df : DataFrame) :
    "_HASH" ∈ (addMetaCols now df).cols := by
  simp only [addMetaCols]
  apply mem_condSetColF_cols
  apply mem_condSetColF_cols
  apply mem_condSetColF_cols
  apply mem_setColF_cols
  exact self_mem_setColF_cols df "_HASH" _

theorem addMetaCols_profile (now : String) (df : DataFrame) :
    (addMetaCols now df).rows.map rowProfile =
      df.rows.map (fun r0 => ((rowVal r0 "NAME", some (compute_row_hash r0)) : Val × Val)) := by
  simp only [addMetaCols]
  rw [condSetColF_profile _ _ _ _ (by decide) (by decide)]
  rw [condSetColF_profile _ _ _ _ (by decide) (by decide)]
  rw [condSetColF_profile _ _ _ _ (by decide) (by decide)]
  show ((df.rows.map (fun r => setVal r "_HASH" (some (compute_row_hash r)))).map
      (fun r => setVal r "_SYNCED_AT" (some now))).map rowProfile = _
  rw [List.map_map, List.map_map]
  apply List.map_congr_left
  intro r _
  show rowProfile (setVal (setVal r "_HASH" (some (compute_row_hash r)))
      "_SYNCED_AT" (some now)) = _
  unfold rowProfile
  rw [rowVal_setVal_ne _ "_SYNCED_AT" "NAME" _ (by decide),
      rowVal_setVal_ne _ "_HASH" "NAME" _ (by decide),
      rowVal_setVal_ne _ "_SYNCED_AT" "_HASH" _ (by decide),
      rowVal_setVal_self]

theorem find_append_nomatch {α : Type} (l : List α) (x : α) (p : α → Bool)
    (h : p x = false) : (l ++ [x]).find? p = l.find? p := by
  rw [List.find?_append]
  have h1 : List.find? p [x] = none := by
    rw [findConsNeg p x [] h]
    rfl
  rw [h1]
  cases l.find? p <;> rfl

theorem find_map_pres {α : Type} (l : List α) (φ : α → α) (p : α → Bool)
    (hp : ∀ r, p (φ r) = p r) :
    (l.map φ).find? p = (l.find? p).map φ := by
  induction l with
  | nil => rfl
  | cons r l ih =>
    rw [List.map_cons]
    cases hpr : p r with
    | true =>
      rw [findConsPos p (φ r) _ ((hp r).trans hpr), findConsPos p r _ hpr]
      rfl
    | false =>
      rw [findConsNeg p (φ r) _ ((hp r).trans hpr), findConsNeg p r _ hpr]
      exact ih

theorem find_map_invariant {α : Type} (l : List α) (φ : α → α) (p : α → Bool)
    (hp : ∀ r, p (φ r) = p r) (hid : ∀ r, p r = true → φ r = r) :
    (l.map φ).find? p = l.find? p := by
  rw [find_map_pres l φ p hp]
  cases hfind : l.find? p with
  | none => rfl
  | some r =>
    have hpr := List.find?_some hfind
    show some (φ r) = some r
    rw [hid r hpr]

theorem upsertRowStep_skip (t : String) (cols : List String) (now : String)
    (acc : Table × List Eff) (br : Row) (sr : Row)
    (hsel : sqlSelectFirst acc.1 (rowVal br "NAME") = some sr)
    (hhash : rowVal sr "_HASH" = rowVal br "_HASH") :
    upsertRowStep t cols now acc br =
      (acc.1, acc.2 ++ [Eff.selectHash t (rowVal br "NAME")]) := by
  unfold upsertRowStep
  simp only [hsel]
  rw [if_neg (by simp [hhash])]

theorem upsertRowStep_select_self (t : String) (cols : List String) (now : String)
    (acc : Table × List Eff) (br : Row)
    (hN : "NAME" ∈ cols) (hH : "_HASH" ∈ cols)
    (hb : (rowVal br "NAME").isSome = true) :
    ∃ sr, sqlSelectFirst (upsertRowStep t cols now acc br).1 (rowVal br "NAME") =
        some sr ∧ rowVal sr "_HASH" = rowVal br "_HASH" := by
  obtain ⟨b, hbv⟩ := Option.isSome_iff_exists.mp hb
  cases hsel : sqlSelectFirst acc.1 (rowVal br "NAME") with
  | none =>
    have heq : (upsertRowStep t cols now acc br).1.rows =
        acc.1.rows ++ [cols.map (fun c => (c, rowVal br c))] := by
      unfold upsertRowStep
      simp only [hsel]
    refine ⟨cols.map (fun c => (c, rowVal br c)), ?_, ?_⟩
    · unfold sqlSelectFirst
      rw [heq, List.find?_append]
      have h0 : acc.1.rows.find?
          (fun sr => eqSql (rowVal sr "NAME") (rowVal br "NAME")) = none := hsel
      rw [h0]
      have hname : rowVal (cols.map (fun c => (c, rowVal br c))) "NAME" =
          rowVal br "NAME" := by
        rw [rowVal_mapRow, if_pos hN]
      have hp : eqSql (rowVal (cols.map (fun c => (c, rowVal br c))) "NAME")
          (rowVal br "NAME") = true := by
        rw [hname, hbv]
        simp [eqSql]
      rw [findConsPos (fun sr : Row => eqSql (rowVal sr "NAME") (rowVal br "NAME"))
        (cols.map (fun c => (c, rowVal br c))) [] hp]
      rfl
    · rw [rowVal_mapRow, if_pos hH]
  | some sr0 =>
    by_cases hh : (rowVal sr0 "_HASH" != rowVal br "_HASH") = true
    · have heq : (upsertRowStep t cols now acc br).1.rows =
          acc.1.rows.map (fun r =>
            if eqSql (rowVal r "NAME") (rowVal br "NAME") then
              updateStoredRow cols br now r
            else r) := by
        unfold upsertRowStep
        simp only [hsel]
        rw [if_pos hh]
      have hp : ∀ r : Row,
          eqSql (rowVal (if eqSql (rowVal r "NAME") (rowVal br "NAME") then
            updateStoredRow cols br now r else r) "NAME") (rowVal br "NAME") =
          eqSql (rowVal r "NAME") (rowVal br "NAME") := by
        intro r
        by_cases hm : eqSql (rowVal r "NAME") (rowVal br "NAME") = true
        · rw [if_pos hm, updateStoredRow_name cols br now r hm]
        · rw [if_neg hm]
      refine ⟨updateStoredRow cols br now sr0, ?_, ?_⟩
      · unfold sqlSelectFirst
        rw [heq, find_map_pres _ _ _ hp]
        have h0 : acc.1.rows.find?
            (fun sr => eqSql (rowVal sr "NAME") (rowVal br "NAME")) = some sr0 := hsel
        rw [h0]
        have hpsr : eqSql (rowVal sr0 "NAME") (rowVal br "NAME") = true :=
          @List.find?_some Row
            (fun sr : Row => eqSql (rowVal sr "NAME") (rowVal br "NAME"))
            sr0 acc.1.rows h0
        show some (if eqSql (rowVal sr0 "NAME") (rowVal br "NAME") then
          updateStoredRow cols br now sr0 else sr0) = _
        rw [if_pos hpsr]
      · rw [rowVal_updateStoredRow,
          if_neg (by decide : ¬ ("_HASH" = "_SYNCED_AT")), if_pos hH]
    · have ht : (upsertRowStep t cols now acc br).1 = acc.1 := by
        unfold upsertRowStep
        simp only [hsel]
        rw [if_neg hh]
      have hb2 : (rowVal sr0 "_HASH" != rowVal br "_HASH") = false := by
        cases hx : (rowVal sr0 "_HASH" != rowVal br "_HASH") with
        | false => rfl
        | true => exact absurd hx hh
      refine ⟨sr0, ?_, by simpa using hb2⟩
      rw [ht]
      exact hsel

theorem upsertRowStep_select_other (t : String) (cols : List String) (now : String)
    (acc : Table × List Eff) (br : Row) (a : String)
    (hbr : ∃ b, rowVal br "NAME" = some b ∧ b ≠ a) :
    sqlSelectFirst (upsertRowStep t cols now acc br).1 (some a) =
      sqlSelectFirst acc.1 (some a) := by
  obtain ⟨b, hbv, hba⟩ := hbr
  cases hsel : sqlSelectFirst acc.1 (rowVal br "NAME") with
  | none =>
    have heq : (upsertRowStep t cols now acc br).1.rows =
        acc.1.rows ++ [cols.map (fun c => (c, rowVal br c))] := by
      unfold upsertRowStep
      simp only [hsel]
    unfold sqlSelectFirst
    rw [heq]
    apply find_append_nomatch
    rw [rowVal_mapRow]
    by_cases hNc : "NAME" ∈ cols
    · rw [if_pos hNc, hbv]
      simp [eqSql, beq_eq_false_iff_ne.mpr hba]
    · rw [if_neg hNc]
      rfl
  | some sr0 =>
    by_cases hh : (rowVal sr0 "_HASH" != rowVal br "_HASH") = true
    · have heq : (upsertRowStep t cols now acc br).1.rows =
          acc.1.rows.map (fun r =>
            if eqSql (rowVal r "NAME") (rowVal br "NAME") then
              updateStoredRow cols br now r
            else r) := by
        unfold upsertRowStep
        simp only [hsel]
        rw [if_pos hh]
      unfold sqlSelectFirst
      rw [heq]
      apply find_map_invariant
      · intro r
        by_cases hm : eqSql (rowVal r "NAME") (rowVal br "NAME") = true
        · rw [if_pos hm, updateStoredRow_name cols br now r hm]
        · rw [if_neg hm]
      · intro r hpr
        rcases (eqSql_true_iff _ _).mp hpr with ⟨s, hs1, hs2⟩
        have hsa : a = s := by
          injection hs2
        have hm : eqSql (rowVal r "NAME") (rowVal br "NAME") = false := by
          rw [hs1, hbv]
          have hsb : (s == b) = false := by
            apply beq_eq_false_iff_ne.mpr
            intro hcon
            exact hba (by rw [← hcon, ← hsa])
          simp [eqSql, hsb]
        rw [if_neg (by simp [hm])]
    · have ht : (upsertRowStep t cols now acc br).1 = acc.1 := by
        unfold upsertRowStep
        simp only [hsel]
        rw [if_neg hh]
      rw [ht]

theorem foldRows_select_other (t : String) (cols : List String) (now : String)
    (a : String) :
    ∀ (rows : List Row) (tbl : Table) (effs : List Eff),
      (∀ br ∈ rows, ∃ b, rowVal br "NAME" = some b ∧ b ≠ a) →
      sqlSelectFirst (rows.foldl (upsertRowStep t cols now) (tbl, effs)).1 (some a) =
        sqlSelectFirst tbl (some a) := by
  intro rows
  induction rows with
  | nil =>
    intro tbl effs _
    rfl
  | cons br rows ih =>
    intro tbl effs hdiff
    rw [List.foldl_cons]
    have hstep := upsertRowStep_select_other t cols now (tbl, effs) br a
      (hdiff br (List.mem_cons_self br rows))
    have hrest := ih (upsertRowStep t cols now (tbl, effs) br).1
      (upsertRowStep t cols now (tbl, effs) br).2
      (fun br' h' => hdiff br' (List.mem_cons_of_mem br h'))
    exact hrest.trans hstep

theorem foldRows_establish (t : String) (cols : List String) (now : String)
    (hN : "NAME" ∈ cols) (hH : "_HASH" ∈ cols) :
    ∀ (rows : List Row) (tbl : Table) (effs : List Eff),
      (rows.map (fun br => rowVal br "NAME")).Nodup →
      (∀ br ∈ rows, (rowVal br "NAME").isSome = true) →
      ∀ br ∈ rows, ∃ sr,
        sqlSelectFirst (rows.foldl (upsertRowStep t cols now) (tbl, effs)).1
          (rowVal br "NAME") = some sr ∧
        rowVal sr "_HASH" = rowVal br "_HASH" := by
  intro rows
  induction rows with
  | nil =>
    intro tbl effs _ _ br hbr
    exact absurd hbr (List.not_mem_nil br)
  | cons br0 rows ih =>
    intro tbl effs hnodup hsome br hbr
    rw [List.foldl_cons]
    rcases List.mem_cons.mp hbr with rfl | hmem
    · obtain ⟨sr, hsr, hh⟩ := upsertRowStep_select_self t cols now (tbl, effs) br hN hH
        (hsome br (List.mem_cons_self br rows))
      refine ⟨sr, ?_, hh⟩
      obtain ⟨b, hbv⟩ := Option.isSome_iff_exists.mp
        (hsome br (List.mem_cons_self br rows))
      rw [hbv]
      rw [hbv] at hsr
      rw [foldRows_select_other t cols now b rows _ _ ?hdiff]
      · exact hsr
      case hdiff =>
        intro br' hbr'
        obtain ⟨b', hb'⟩ := Option.isSome_iff_exists.mp
          (hsome br' (List.mem_cons_of_mem br hbr'))
        refine ⟨b', hb', fun hcon => ?_⟩
        have hnd := List.nodup_cons.mp hnodup
        apply hnd.1
        refine List.mem_map.mpr ⟨br', hbr', ?_⟩
        rw [hb', hcon, ← hbv]
    · exact ih (upsertRowStep t cols now (tbl, effs) br0).1
        (upsertRowStep t cols now (tbl, effs) br0).2
        (List.nodup_cons.mp hnodup).2
        (fun x hx => hsome x (List.mem_cons_of_mem br0 hx)) br hmem

theorem foldRows_all_skip (t : String) (cols : List String) (now : String) :
    ∀ (rows : List Row) (tbl : Table) (effs : List Eff),
      (∀ br ∈ rows, ∃ sr, sqlSelectFirst tbl (rowVal br "NAME") = some sr ∧
        rowVal sr "_HASH" = rowVal br "_HASH") →
      rows.foldl (upsertRowStep t cols now) (tbl, effs) =
        (tbl, effs ++ rows.map (fun br => Eff.selectHash t (rowVal br "NAME"))) := by
  intro rows
  induction rows with
  | nil =>
    intro tbl effs _
    simp
  | cons br0 rows ih =>
    intro tbl effs hinv
    rw [List.foldl_cons]
    obtain ⟨sr, hsel, hh⟩ := hinv br0 (List.mem_cons_self br0 rows)
    rw [upsertRowStep_skip t cols now (tbl, effs) br0 sr hsel hh]
    rw [ih tbl (effs ++ [Eff.selectHash t (rowVal br0 "NAME")])
      (fun br h => hinv br (List.mem_cons_of_mem br0 h))]
    simp

theorem getTable_some_any (db : DB) (t : String) (tbl : Table)
    (h : getTable db t = some tbl) : db.any (fun p => p.1 == t) = true := by
  unfold getTable at h
  cases hf : db.find? (fun p => p.1 == t) with
  | none =>
    rw [hf] at h
    exact absurd h (by simp)
  | some p =>
    have hp := List.find?_some hf
    have hmem := List.mem_of_find?_eq_some hf
    exact List.any_eq_true.mpr ⟨p, hmem, hp⟩

theorem filter_not_contains_self (l : List String) :
    l.filter (fun c => !l.contains c) = [] := by
  rw [List.filter_eq_nil_iff]
  intro c hc
  simpa using hc

theorem upsert_dataframe_eq_none (now : String) (df0 : DataFrame) (t : String) (db : DB)
    (hne : df0.isEmpty = false) (hT : getTable db t = none) :
    upsert_dataframe now df0 t db =
      (putTable (putTable db t { cols := (addMetaCols now df0).cols, rows := [] }) t
        ((addMetaCols now df0).rows.foldl
          (upsertRowStep t (addMetaCols now df0).cols now)
          ({ cols := (addMetaCols now df0).cols ++
               (addMetaCols now df0).cols.filter
                 (fun c => !(addMetaCols now df0).cols.contains c),
             rows := ([] : List Row) }, [])).1,
       [Eff.createTableIfAbsent t (addMetaCols now df0).cols sqlTextType] ++
         ((addMetaCols now df0).cols.filter
           (fun c => !(addMetaCols now df0).cols.contains c)).map
           (fun c => Eff.alterAddColumn t c sqlTextType) ++
         [Eff.ensureIndexes t] ++
         ((addMetaCols now df0).rows.foldl
           (upsertRowStep t (addMetaCols now df0).cols now)
           ({ cols := (addMetaCols now df0).cols ++
                (addMetaCols now df0).cols.filter
                  (fun c => !(addMetaCols now df0).cols.contains c),
              rows := ([] : List Row) }, [])).2) := by
  unfold upsert_dataframe
  rw [if_neg (by simp [hne])]
  simp only [hT]

/-- The state `upsert_dataframe` leaves behind, read off for the second,
idempotent call: the destination holds one table for `t`, its columns
cover the metadata-extended batch columns, and the first stored row
matching each batch NAME carries that row's recomputed fingerprint. -/
theorem upsert_post (now : String) (df : DataFrame) (t : String) (db : DB)
    (hne : df.isEmpty = false) (hN : "NAME" ∈ df.cols)
    (hsome : ∀ r ∈ df.rows, (rowVal r "NAME").isSome = true)
    (hnodup : (df.rows.map (fun r => rowVal r "NAME")).Nodup) :
    ∃ tbl1, getTable (upsert_dataframe now df t db).1 t = some tbl1 ∧
      (∀ p ∈ (upsert_dataframe now df t db).1, p.1 = t → p = (t, tbl1)) ∧
      (∀ c ∈ (addMetaCols now df).cols, c ∈ tbl1.cols) ∧
      (∀ r0 ∈ df.rows, ∃ sr, sqlSelectFirst tbl1 (rowVal r0 "NAME") = some sr ∧
        rowVal sr "_HASH" = some (compute_row_hash r0)) := by
  have hN1 : "NAME" ∈ (addMetaCols now df).cols := mem_addMetaCols_cols now df _ hN
  have hH1 : "_HASH" ∈ (addMetaCols now df).cols := hash_mem_addMetaCols_cols now df
  have hprof := addMetaCols_profile now df
  have hnames : (addMetaCols now df).rows.map (fun br => rowVal br "NAME") =
      df.rows.map (fun r0 => rowVal r0 "NAME") := by
    have h2 := congrArg (List.map Prod.fst) hprof
    rw [List.map_map, List.map_map] at h2
    exact h2
  have hnodup1 : ((addMetaCols now df).rows.map (fun br => rowVal br "NAME")).Nodup := by
    rw [hnames]
    exact hnodup
  have hsome1 : ∀ br ∈ (addMetaCols now df).rows, (rowVal br "NAME").isSome = true := by
    intro br hbr
    have hmem : rowVal br "NAME" ∈
        (addMetaCols now df).rows.map (fun br => rowVal br "NAME") :=
      List.mem_map.mpr ⟨br, hbr, rfl⟩
    rw [hnames] at hmem
    rcases List.mem_map.mp hmem with ⟨r0, hr0, hval⟩
    rw [← hval]
    exact hsome r0 hr0
  have hrev : ∀ r0 ∈ df.rows, ∃ br ∈ (addMetaCols now df).rows,
      rowVal br "NAME" = rowVal r0 "NAME" ∧
      rowVal br "_HASH" = some (compute_row_hash r0) := by
    intro r0 hr0
    have hmem : ((rowVal r0 "NAME", some (compute_row_hash r0)) : Val × Val) ∈
        df.rows.map (fun r0 => ((rowVal r0 "NAME", some (compute_row_hash r0)) : Val × Val)) :=
      List.mem_map.mpr ⟨r0, hr0, rfl⟩
    rw [← hprof] at hmem
    rcases List.mem_map.mp hmem with ⟨br, hbr, hval⟩
    unfold rowProfile at hval
    refine ⟨br, hbr, ?_, ?_⟩
    · exact congrArg Prod.fst hval
    · exact congrArg Prod.snd hval
  cases hT : getTable db t with
  | some T =>
    rw [upsert_dataframe_eq_some now df t db T hne hT]
    refine ⟨_, getTable_putTable_self _ _ _, putTable_mem_eq _ _ _, ?_, ?_⟩
    · intro c hc
      obtain ⟨hcc, _, _, _⟩ := foldRows_frame t (addMetaCols now df).cols now
        (addMetaCols now df).rows
        ({ cols := T.cols ++
             (addMetaCols now df).cols.filter (fun c => !T.cols.contains c),
           rows := T.rows }) []
      rw [hcc]
      by_cases hcT : c ∈ T.cols
      · exact List.mem_append_left _ hcT
      · refine List.mem_append_right _ (List.mem_filter.mpr ⟨hc, ?_⟩)
        simpa using hcT
    · intro r0 hr0
      obtain ⟨br, hbr, hname, hhash⟩ := hrev r0 hr0
      obtain ⟨sr, hsr, hsrh⟩ := foldRows_establish t (addMetaCols now df).cols now
        hN1 hH1 (addMetaCols now df).rows
        ({ cols := T.cols ++
             (addMetaCols now df).cols.filter (fun c => !T.cols.contains c),
           rows := T.rows }) [] hnodup1 hsome1 br hbr
      refine ⟨sr, ?_, ?_⟩
      · rw [← hname]
        exact hsr
      · rw [hsrh, hhash]
  | none =>
    rw [upsert_dataframe_eq_none now df t db hne hT]
    refine ⟨_, getTable_putTable_self _ _ _, putTable_mem_eq _ _ _, ?_, ?_⟩
    · intro c hc
      obtain ⟨hcc, _, _, _⟩ := foldRows_frame t (addMetaCols now df).cols now
        (addMetaCols now df).rows
        ({ cols := (addMetaCols now df).cols ++
             (addMetaCols now df).cols.filter
               (fun c => !(addMetaCols now df).cols.contains c),
           rows := ([] : List Row) }) []
      rw [hcc]
      exact List.mem_append_left _ hc
    · intro r0 hr0
      obtain ⟨br, hbr, hname, hhash⟩ := hrev r0 hr0
      obtain ⟨sr, hsr, hsrh⟩ := foldRows_establish t (addMetaCols now df).cols now
        hN1 hH1 (addMetaCols now df).rows
        ({ cols := (addMetaCols now df).cols ++
             (addMetaCols now df).cols.filter
               (fun c => !(addMetaCols now df).cols.contains c),
           rows := ([] : List Row) }) [] hnodup1 hsome1 br hbr
      refine ⟨sr, ?_, ?_⟩
      · rw [← hname]
        exact hsr
      · rw [hsrh, hhash]

/-! ## Claim theorems -/

/-- C5: two rows whose non-metadata fields (names not starting with `_`)
are pairwise identical get identical fingerprints from
`compute_row_hash`, whatever their metadata fields (such as the
synchronized-at timestamp or the identity fields) hold. -/
theorem compute_row_hash_ignores_metadata (r1 r2 : Row)
    (h : r1.filter nonMetaPred = r2.filter nonMetaPred) :
    compute_row_hash r1 = compute_row_hash r2 := by
  unfold compute_row_hash rowContent
  rw [h]

/-- Witness for C5: the same business fields under differing
`_SYNCED_AT` and `_ALTERID` metadata hash identically. -/
theorem compute_row_hash_ignores_metadata_witness :
    ([("NAME", (some "Cash" : Val)), ("PARENT", some "Assets"),
      ("_SYNCED_AT", some "2024-01-01"), ("_ALTERID", some "7")].filter nonMetaPred =
     [("NAME", (some "Cash" : Val)), ("PARENT", some "Assets"),
      ("_SYNCED_AT", some "2024-06-30"), ("_ALTERID", none)].filter nonMetaPred) ∧
    compute_row_hash
      [("NAME", some "Cash"), ("PARENT", some "Assets"),
       ("_SYNCED_AT", some "2024-01-01"), ("_ALTERID", some "7")] =
    compute_row_hash
      [("NAME", some "Cash"), ("PARENT", some "Assets"),
       ("_SYNCED_AT", some "2024-06-30"), ("_ALTERID", none)] :=
  ⟨by decide, compute_row_hash_ignores_metadata _ _ (by decide)⟩

/-- C9: `compute_row_hash` renders an absent value (`None`) and the
empty string identically, so swapping one for the other at any field
leaves the fingerprint unchanged. -/
theorem compute_row_hash_none_eq_empty (pre post : Row) (k : String) :
    compute_row_hash (pre ++ (k, none) :: post) =
      compute_row_hash (pre ++ (k, some "") :: post) := by
  unfold compute_row_hash sha1Hex rowContent
  cases h : nonMetaPred (k, (none : Val)) with
  | false =>
    have h2 : nonMetaPred (k, (some "" : Val)) = false := h
    rw [List.filter_append, List.filter_append, List.filter_cons, List.filter_cons, h, h2]
    simp
  | true =>
    have h2 : nonMetaPred (k, (some "" : Val)) = true := h
    rw [List.filter_append, List.filter_append, List.filter_cons, List.filter_cons, h, h2]
    simp [valueStr]

/-- C7: `send_request` returns the empty string on any transport failure
and the raw response body unchanged on transport success; it never
propagates the failure (the embedding is a total function whose failure
branch is the caught exception path of the `try`/`except`). -/
theorem send_request_transport (transport : String → Except String String)
    (xml : String) :
    (∀ e, transport xml = Except.error e → send_request transport xml = "") ∧
    (∀ body, transport xml = Except.ok body → send_request transport xml = body) := by
  constructor
  · intro e he
    unfold send_request
    rw [he]
  · intro body hb
    unfold send_request
    rw [hb]

/-- Witness for C7: a timing-out transport yields `""`; a successful
transport's body comes back verbatim. -/
theorem send_request_transport_witness :
    send_request (fun _ => Except.error "connection timeout") "<ENVELOPE/>" = "" ∧
    send_request (fun _ => Except.ok "<RESPONSE/>") "<ENVELOPE/>" = "<RESPONSE/>" :=
  ⟨(send_request_transport (fun _ => Except.error "connection timeout") "<ENVELOPE/>").1
      "connection timeout" rfl,
   (send_request_transport (fun _ => Except.ok "<RESPONSE/>") "<ENVELOPE/>").2
      "<RESPONSE/>" rfl⟩

/-- C8: persisting a batch with zero rows is a no-op: `upsert_dataframe`
returns after the logged warning, the effect trace holds no SQL
statement at all, and the database — whether or not the table exists —
is returned unchanged. -/
theorem upsert_dataframe_empty_noop (now : String) (df : DataFrame) (t : String)
    (db : DB) (h : df.rows = []) :
    upsert_dataframe now df t db = (db, [Eff.warnEmpty t]) := by
  have he : df.isEmpty = true := by simp [DataFrame.isEmpty, h]
  unfold upsert_dataframe
  rw [if_pos he]

/-- Witness for C8: an empty Ledger batch against a database whose
Ledger table exists and holds a row changes nothing. -/
theorem upsert_dataframe_empty_noop_witness :
    ({ cols := ["NAME", "PARENT"], rows := [] } : DataFrame).rows = [] ∧
    upsert_dataframe "2024-01-01" { cols := ["NAME", "PARENT"], rows := [] } "Ledger" demoDb =
      (demoDb, [Eff.warnEmpty "Ledger"]) :=
  ⟨rfl, upsert_dataframe_empty_noop "2024-01-01" _ "Ledger" demoDb rfl⟩

/-- C6: for every input text and requested field list the normalizer is
total (the `try`/`except` catches every parse failure), and on a
structural parse failure — the library parser rejecting even the
sanitized text — it returns the empty batch whose column set is exactly
the requested field names. -/
theorem parse_xml_to_df_failure_shape (fromstring : String → Except String XmlElem)
    (xml : String) (tags : List String) (e : String)
    (h : fromstring (sanitizeXml xml) = Except.error e) :
    parse_xml_to_df fromstring xml tags = { cols := tags, rows := [] } := by
  unfold parse_xml_to_df
  rw [h]

/-- Witness for C6: markup with a bare `&` that the parser still rejects
after sanitization yields the empty batch carrying the requested
columns. -/
theorem parse_xml_to_df_failure_shape_witness :
    ((fun _ => Except.error "not well-formed") : String → Except String XmlElem)
        (sanitizeXml "<LEDGER>R & D department") = Except.error "not well-formed" ∧
    parse_xml_to_df (fun _ => Except.error "not well-formed")
        "<LEDGER>R & D department" ["NAME", "PARENT"] =
      { cols := ["NAME", "PARENT"], rows := [] } :=
  ⟨rfl, parse_xml_to_df_failure_shape _ _ ["NAME", "PARENT"] "not well-formed" rfl⟩

/-- C10: when the parser accepts the input and every COLLECTION node
holds zero record instances, the batch is `pd.DataFrame([])` — its
column set is empty, not the requested field list, so this empty outcome
differs in column shape from the parse-failure outcome. -/
theorem parse_xml_to_df_no_records_shape (fromstring : String → Except String XmlElem)
    (xml : String) (tags : List String) (root : XmlElem)
    (hok : fromstring (sanitizeXml xml) = Except.ok root)
    (hempty : ∀ c ∈ iterTag "COLLECTION" root, c.childrenOf = []) :
    parse_xml_to_df fromstring xml tags = { cols := [], rows := [] } ∧
    (tags ≠ [] → (parse_xml_to_df fromstring xml tags).cols ≠ tags) := by
  have hrows : (iterTag "COLLECTION" root).flatMap
      (fun obj => obj.childrenOf.map (rowOfChild tags)) = [] := by
    rw [List.flatMap_eq_nil_iff]
    intro obj hobj
    rw [hempty obj hobj]
    rfl
  have hmain : parse_xml_to_df fromstring xml tags = { cols := [], rows := [] } := by
    unfold parse_xml_to_df
    rw [hok]
    show dfOfRecords ((iterTag "COLLECTION" root).flatMap
      (fun obj => obj.childrenOf.map (rowOfChild tags))) = { cols := [], rows := [] }
    rw [hrows]
    simp [dfOfRecords, dedupFirst]
  refine ⟨hmain, fun htags => ?_⟩
  rw [hmain]
  intro hcon
  exact htags hcon.symm

/-- Witness for C10: a well-formed envelope with one empty COLLECTION
yields column set `[]`, not the requested `["NAME"]`. -/
theorem parse_xml_to_df_no_records_shape_witness :
    ((fun _ => Except.ok demoEmptyRoot) : String → Except String XmlElem)
        (sanitizeXml "<ENVELOPE><COLLECTION></COLLECTION></ENVELOPE>") =
      Except.ok demoEmptyRoot ∧
    parse_xml_to_df (fun _ => Except.ok demoEmptyRoot)
        "<ENVELOPE><COLLECTION></COLLECTION></ENVELOPE>" ["NAME"] =
      { cols := [], rows := [] } ∧
    (parse_xml_to_df (fun _ => Except.ok demoEmptyRoot)
        "<ENVELOPE><COLLECTION></COLLECTION></ENVELOPE>" ["NAME"]).cols ≠ ["NAME"] := by
  have hempty : ∀ c ∈ iterTag "COLLECTION" demoEmptyRoot, c.childrenOf = [] := by
    intro c hc
    have hit : iterTag "COLLECTION" demoEmptyRoot =
        [XmlElem.elem "COLLECTION" none []] := by
      simp [demoEmptyRoot, iterTag, iterTagList]
    rw [hit] at hc
    rcases List.mem_singleton.mp hc with rfl
    rfl
  have hmain := parse_xml_to_df_no_records_shape (fun _ => Except.ok demoEmptyRoot)
    "<ENVELOPE><COLLECTION></COLLECTION></ENVELOPE>" ["NAME"] demoEmptyRoot rfl hempty
  exact ⟨rfl, hmain.1, hmain.2 (by decide)⟩

/-- C1: `fetch_master` always issues the rich export request first; it
returns the rich batch unchanged with no further request when that batch
is non-empty, and issues the minimal NAME-only fallback request exactly
once — the trace is precisely rich-then-fallback — when the rich batch
is empty. -/
theorem fetch_master_fallback_policy (transport : String → Except String String)
    (fromstring : String → Except String XmlElem)
    (master : String) (full_fields : List String) :
    (fetch_master transport fromstring master full_fields).2.head? =
      some (xmlEnvelopeFull master) ∧
    ((parse_xml_to_df fromstring
        (send_request transport (xmlEnvelopeFull master)) full_fields).isEmpty = false →
      fetch_master transport fromstring master full_fields =
        (parse_xml_to_df fromstring
          (send_request transport (xmlEnvelopeFull master)) full_fields,
         [xmlEnvelopeFull master])) ∧
    ((parse_xml_to_df fromstring
        (send_request transport (xmlEnvelopeFull master)) full_fields).isEmpty = true →
      fetch_master transport fromstring master full_fields =
        (parse_xml_to_df fromstring
          (send_request transport (xmlEnvelopeEdu master)) ["NAME"],
         [xmlEnvelopeFull master, xmlEnvelopeEdu master])) := by
  cases hemp : (parse_xml_to_df fromstring
      (send_request transport (xmlEnvelopeFull master)) full_fields).isEmpty with
  | false =>
    have hres : fetch_master transport fromstring master full_fields =
        (parse_xml_to_df fromstring
          (send_request transport (xmlEnvelopeFull master)) full_fields,
         [xmlEnvelopeFull master]) := by
      unfold fetch_master
      simp [hemp]
    exact ⟨by rw [hres]; rfl, fun _ => hres, fun hcon => absurd hcon (by simp [hemp])⟩
  | true =>
    have hres : fetch_master transport fromstring master full_fields =
        (parse_xml_to_df fromstring
          (send_request transport (xmlEnvelopeEdu master)) ["NAME"],
         [xmlEnvelopeFull master, xmlEnvelopeEdu master]) := by
      unfold fetch_master
      simp [hemp]
    exact ⟨by rw [hres]; rfl, fun hcon => absurd hcon (by simp [hemp]), fun _ => hres⟩

/-- Witness for C1: with the source down (transport failure on both
requests) the rich batch is empty and `fetch_master` issues the fallback
request exactly once after the rich one. -/
theorem fetch_master_fallback_policy_witness :
    (parse_xml_to_df (fun _ => Except.error "no parse")
        (send_request (fun _ => Except.error "unreachable") (xmlEnvelopeFull "Ledger"))
        ["NAME", "PARENT", "OPENINGBALANCE"]).isEmpty = true ∧
    fetch_master (fun _ => Except.error "unreachable") (fun _ => Except.error "no parse")
        "Ledger" ["NAME", "PARENT", "OPENINGBALANCE"] =
      (parse_xml_to_df (fun _ => Except.error "no parse")
          (send_request (fun _ => Except.error "unreachable") (xmlEnvelopeEdu "Ledger"))
          ["NAME"],
       [xmlEnvelopeFull "Ledger", xmlEnvelopeEdu "Ledger"]) :=
  ⟨rfl,
   (fetch_master_fallback_policy (fun _ => Except.error "unreachable")
      (fun _ => Except.error "no parse") "Ledger" ["NAME", "PARENT", "OPENINGBALANCE"]).2.2 rfl⟩

/-- C3 counterexample: the orchestration loop catches nothing.  With a
per-type sync step that raises (a database failure), running the
selection `["Ledger", "Group"]` stops at Ledger: the exception propagates
to the caller and Group — a remaining record type — is never attempted,
and no per-type outcome report exists (the Python function returns
`None`). -/
theorem run_selected_abort_counterexample :
    (run_selected (fun _ _ => Except.error "pyodbc: connection lost")
        ["Ledger", "Group"]).2 = some "pyodbc: connection lost" ∧
    "Group" ∉ (run_selected (fun _ _ => Except.error "pyodbc: connection lost")
        ["Ledger", "Group"]).1 := by
  constructor
  · rfl
  · intro hmem
    have : (run_selected (fun _ _ => Except.error "pyodbc: connection lost")
        ["Ledger", "Group"]).1 = ["Ledger"] := rfl
    rw [this] at hmem
    rcases List.mem_singleton.mp hmem with h
    exact absurd h (by decide)

/-- C3 amended: a failure while exporting, normalizing or persisting one
record type aborts the orchestrated run — `run_selected` processes the
selected types in order only up to and including the first failing type,
propagates that exception to its caller, and produces no per-type
outcome report; absent failures it processes every selected type in
order and no exception escapes. -/
theorem run_selected_aborts_on_first_failure
    (syncOne : String → List String → Except String Nat) :
    (∀ selected : List String,
      (∀ x ∈ selected, ∃ n, syncOne x (mastersFields x) = Except.ok n) →
      run_selected syncOne selected = (selected, none)) ∧
    (∀ (pre : List String) (m : String) (post : List String) (e : String),
      (∀ x ∈ pre, ∃ n, syncOne x (mastersFields x) = Except.ok n) →
      syncOne m (mastersFields m) = Except.error e →
      run_selected syncOne (pre ++ m :: post) = (pre ++ [m], some e)) := by
  constructor
  · intro selected
    induction selected with
    | nil =>
      intro _
      rfl
    | cons x rest ih =>
      intro hok
      obtain ⟨n, hx⟩ := hok x (List.mem_cons_self x rest)
      unfold run_selected
      rw [hx, ih (fun y hy => hok y (List.mem_cons_of_mem x hy))]
  · intro pre m post e hpre hm
    induction pre with
    | nil =>
      rw [List.nil_append]
      unfold run_selected
      rw [hm]
      rfl
    | cons x pre ih =>
      obtain ⟨n, hx⟩ := hpre x (List.mem_cons_self x pre)
      have hrest := ih (fun y hy => hpre y (List.mem_cons_of_mem x hy))
      rw [List.cons_append]
      unfold run_selected
      rw [hx, hrest]
      rfl

/-- Witness for C3's amended theorem, both branches: with Group the sole
failing type, the selection `["Ledger", "Group", "Currency"]` stops
after Group, skipping Currency, and surfaces the exception; the
failure-free selection `["Ledger", "Currency"]` is processed in full
with no exception. -/
theorem run_selected_aborts_on_first_failure_witness :
    (∀ x ∈ ["Ledger"], ∃ n,
      (fun (t : String) (_ : List String) =>
        if t == "Group" then (Except.error "primary key violation" : Except String Nat)
        else Except.ok 5) x (mastersFields x) = Except.ok n) ∧
    (fun (t : String) (_ : List String) =>
        if t == "Group" then (Except.error "primary key violation" : Except String Nat)
        else Except.ok 5) "Group" (mastersFields "Group") =
      Except.error "primary key violation" ∧
    run_selected
      (fun (t : String) (_ : List String) =>
        if t == "Group" then (Except.error "primary key violation" : Except String Nat)
        else Except.ok 5)
      (["Ledger"] ++ "Group" :: ["Currency"]) =
      (["Ledger"] ++ ["Group"], some "primary key violation") ∧
    (∀ x ∈ ["Ledger", "Currency"], ∃ n,
      (fun (t : String) (_ : List String) =>
        if t == "Group" then (Except.error "primary key violation" : Except String Nat)
        else Except.ok 5) x (mastersFields x) = Except.ok n) ∧
    run_selected
      (fun (t : String) (_ : List String) =>
        if t == "Group" then (Except.error "primary key violation" : Except String Nat)
        else Except.ok 5)
      ["Ledger", "Currency"] = (["Ledger", "Currency"], none) := by
  refine ⟨?_, rfl, ?_, ?_, ?_⟩
  · intro x hx
    rcases List.mem_singleton.mp hx with rfl
    exact ⟨5, rfl⟩
  · exact (run_selected_aborts_on_first_failure _).2 ["Ledger"] "Group" ["Currency"]
      "primary key violation"
      (fun x hx => by
        rcases List.mem_singleton.mp hx with rfl
        exact ⟨5, rfl⟩)
      rfl
  · intro x hx
    rcases List.mem_cons.mp hx with rfl | hx2
    · exact ⟨5, rfl⟩
    · rcases List.mem_singleton.mp hx2 with rfl
      exact ⟨5, rfl⟩
  · exact (run_selected_aborts_on_first_failure _).1 ["Ledger", "Currency"]
      (fun x hx => by
        rcases List.mem_cons.mp hx with rfl | hx2
        · exact ⟨5, rfl⟩
        · rcases List.mem_singleton.mp hx2 with rfl
          exact ⟨5, rfl⟩)

/-- C4: against an existing destination table, `upsert_dataframe` only
grows the schema — the old column list stays as a prefix (nothing is
dropped, reordered or retyped), exactly the batch columns not yet present
are appended, every added column is NVARCHAR(MAX) text, and no stored row
is deleted (the row count never shrinks and each surviving position keeps
its NAME key). -/
theorem upsert_schema_monotone (now : String) (df : DataFrame) (t : String) (db : DB)
    (T : Table) (hT : getTable db t = some T) :
    ∃ T', getTable (upsert_dataframe now df t db).1 t = some T' ∧
      (∃ added, T'.cols = T.cols ++ added ∧
        ∀ c ∈ added, c ∈ (addMetaCols now df).cols ∧ c ∉ T.cols) ∧
      (df.isEmpty = false →
        T'.cols = T.cols ++
          (addMetaCols now df).cols.filter (fun c => !T.cols.contains c)) ∧
      T.rows.length ≤ T'.rows.length ∧
      (∀ i, (h : i < T.rows.length) → (h' : i < T'.rows.length) →
        rowVal (T'.rows[i]) "NAME" = rowVal (T.rows[i]) "NAME") ∧
      (∀ c ty, Eff.alterAddColumn t c ty ∈ (upsert_dataframe now df t db).2 →
        ty = sqlTextType ∧ c ∉ T.cols) := by
  cases hne : df.isEmpty with
  | true =>
    have hu : upsert_dataframe now df t db = (db, [Eff.warnEmpty t]) := by
      unfold upsert_dataframe
      rw [if_pos hne]
    refine ⟨T, ?_, ⟨[], (List.append_nil T.cols).symm, by simp⟩, ?_, Nat.le_refl _, ?_, ?_⟩
    · rw [hu]
      exact hT
    · intro hcon
      exact absurd hcon (by simp [hne])
    · intro i h h2
      rfl
    · intro c ty hmem
      rw [hu] at hmem
      simp at hmem
  | false =>
    rw [upsert_dataframe_eq_some now df t db T hne hT]
    obtain ⟨hc, hl, hn, he⟩ := foldRows_frame t (addMetaCols now df).cols now
      (addMetaCols now df).rows
      ({ cols := T.cols ++ (addMetaCols now df).cols.filter (fun c => !T.cols.contains c),
         rows := T.rows }) []
    refine ⟨_, getTable_putTable_self _ _ _,
      ⟨(addMetaCols now df).cols.filter (fun c => !T.cols.contains c), hc, ?_⟩,
      fun _ => hc, hl, hn, ?_⟩
    · intro c hcmem
      rcases List.mem_filter.mp hcmem with ⟨h1, h2⟩
      refine ⟨h1, ?_⟩
      simpa using h2
    · intro c ty hmem
      rcases List.mem_append.mp hmem with hmem1 | hmemF
      · rcases List.mem_append.mp hmem1 with hmem2 | hmemI
        · rcases List.mem_append.mp hmem2 with hmemC | hmemA
          · simp at hmemC
          · rcases List.mem_map.mp hmemA with ⟨c2, hc2, hceq⟩
            rcases List.mem_filter.mp hc2 with ⟨h1, h2⟩
            have hcc : c2 = c ∧ sqlTextType = ty := by
              injection hceq with e1 e2 e3
              exact ⟨e2, e3⟩
            rcases hcc with ⟨rfl, hty⟩
            refine ⟨hty.symm, ?_⟩
            simpa using h2
        · simp at hmemI
      · exfalso
        have hmf : Eff.alterAddColumn t c ty ∈
            (((addMetaCols now df).rows.foldl
              (upsertRowStep t (addMetaCols now df).cols now)
              ({ cols := T.cols ++
                   (addMetaCols now df).cols.filter (fun c => !T.cols.contains c),
                 rows := T.rows }, [])).2.filter isAlterEff) :=
          List.mem_filter.mpr ⟨hmemF, rfl⟩
        rw [he] at hmf
        simp at hmf

/-- Witness for C4: persisting `widerBatch` (which carries the new
OPENINGBALANCE column) against `demoDb`, whose Ledger table has only
NAME, satisfies every conjunct of the schema-growth theorem. -/
theorem upsert_schema_monotone_witness :
    getTable demoDb "Ledger" =
      some { cols := ["NAME"], rows := [[("NAME", some "Cash")]] } ∧
    (∃ T', getTable (upsert_dataframe "2024-01-01" widerBatch "Ledger" demoDb).1 "Ledger" =
        some T' ∧
      (∃ added, T'.cols = ["NAME"] ++ added ∧
        ∀ c ∈ added, c ∈ (addMetaCols "2024-01-01" widerBatch).cols ∧
          c ∉ (["NAME"] : List String)) ∧
      (widerBatch.isEmpty = false →
        T'.cols = ["NAME"] ++
          (addMetaCols "2024-01-01" widerBatch).cols.filter
            (fun c => !(["NAME"] : List String).contains c)) ∧
      ([[("NAME", (some "Cash" : Val))]] : List Row).length ≤ T'.rows.length ∧
      (∀ i, (h : i < ([[("NAME", (some "Cash" : Val))]] : List Row).length) →
        (h' : i < T'.rows.length) →
        rowVal (T'.rows[i]) "NAME" =
          rowVal (([[("NAME", (some "Cash" : Val))]] : List Row)[i]) "NAME") ∧
      (∀ c ty, Eff.alterAddColumn "Ledger" c ty ∈
          (upsert_dataframe "2024-01-01" widerBatch "Ledger" demoDb).2 →
        ty = sqlTextType ∧ c ∉ (["NAME"] : List String))) :=
  ⟨rfl, upsert_schema_monotone "2024-01-01" widerBatch "Ledger" demoDb
    { cols := ["NAME"], rows := [[("NAME", some "Cash")]] } rfl⟩

/-- C2 counterexample: a batch may legally carry two rows with the same
NAME (nothing deduplicates parsed rows), and then persisting it twice is
not idempotent — each of the two rows keeps overwriting the single
stored row keyed "Cash" with the other's content, so the second call
still executes two UPDATE statements and even rewrites the stored
`_SYNCED_AT`/`_HASH`/PARENT values. -/
theorem upsert_not_idempotent_counterexample :
    (upsert_dataframe "2024-01-02" dupNameBatch "Ledger"
        (upsert_dataframe "2024-01-01" dupNameBatch "Ledger" []).1).2.countP
      isUpdateEff = 2 ∧
    (upsert_dataframe "2024-01-02" dupNameBatch "Ledger"
        (upsert_dataframe "2024-01-01" dupNameBatch "Ledger" []).1).1 ≠
      (upsert_dataframe "2024-01-01" dupNameBatch "Ledger" []).1 := by
  constructor
  · decide
  · decide

/-- C2 amended: persisting the same batch twice in succession against
the same destination table is idempotent provided every row carries a
non-NULL NAME and the batch's NAME values are pairwise distinct: on the
second call every row's stored fingerprint matches its recomputed
fingerprint, so every row is skipped, the trace holds zero UPDATE
statements, and the destination database is left exactly as the first
call left it. -/
theorem upsert_idempotent_of_distinct_names (now1 now2 t : String)
    (df : DataFrame) (db : DB)
    (hN : "NAME" ∈ df.cols)
    (hsome : ∀ r ∈ df.rows, (rowVal r "NAME").isSome = true)
    (hnodup : (df.rows.map (fun r => rowVal r "NAME")).Nodup) :
    (upsert_dataframe now2 df t (upsert_dataframe now1 df t db).1).1 =
      (upsert_dataframe now1 df t db).1 ∧
    (upsert_dataframe now2 df t
      (upsert_dataframe now1 df t db).1).2.countP isUpdateEff = 0 := by
  cases hne : df.isEmpty with
  | true =>
    have h2 : upsert_dataframe now2 df t (upsert_dataframe now1 df t db).1 =
        ((upsert_dataframe now1 df t db).1, [Eff.warnEmpty t]) := by
      unfold upsert_dataframe
      rw [if_pos hne]
    rw [h2]
    exact ⟨rfl, rfl⟩
  | false =>
    obtain ⟨tbl1, hget, hall, hcols, hinv⟩ := upsert_post now1 df t db hne hN hsome hnodup
    rw [upsert_dataframe_eq_some now2 df t (upsert_dataframe now1 df t db).1 tbl1 hne hget]
    have hmiss : (addMetaCols now2 df).cols.filter (fun c => !tbl1.cols.contains c) = [] := by
      rw [List.filter_eq_nil_iff]
      intro c hc
      rw [addMetaCols_cols_now now2 now1 df] at hc
      simpa using hcols c hc
    rw [hmiss]
    have hstart : ({ cols := tbl1.cols ++ [], rows := tbl1.rows } : Table) = tbl1 := by
      rw [List.append_nil]
    rw [hstart]
    have hinv2 : ∀ br ∈ (addMetaCols now2 df).rows, ∃ sr,
        sqlSelectFirst tbl1 (rowVal br "NAME") = some sr ∧
        rowVal sr "_HASH" = rowVal br "_HASH" := by
      intro br hbr
      have hprof2 := addMetaCols_profile now2 df
      have hmem : rowProfile br ∈ (addMetaCols now2 df).rows.map rowProfile :=
        List.mem_map.mpr ⟨br, hbr, rfl⟩
      rw [hprof2] at hmem
      rcases List.mem_map.mp hmem with ⟨r0, hr0, hval⟩
      have hname : rowVal br "NAME" = rowVal r0 "NAME" :=
        (congrArg Prod.fst hval).symm
      have hhash : rowVal br "_HASH" = some (compute_row_hash r0) :=
        (congrArg Prod.snd hval).symm
      obtain ⟨sr, hs1, hs2⟩ := hinv r0 hr0
      refine ⟨sr, ?_, ?_⟩
      · rw [hname]
        exact hs1
      · rw [hhash]
        exact hs2
    rw [foldRows_all_skip t (addMetaCols now2 df).cols now2
      (addMetaCols now2 df).rows tbl1 [] hinv2]
    constructor
    · exact putTable_eq_self _ t tbl1 hall (getTable_some_any _ t tbl1 hget)
    · simp [List.countP_append, List.countP_map, isUpdateEff, Function.comp]

/-- Witness for C2's amended theorem: the two-row distinct-NAME batch
persisted twice against an initially empty database leaves the database
unchanged on the second call and issues zero UPDATE statements. -/
theorem upsert_idempotent_of_distinct_names_witness :
    ("NAME" ∈ twoLedgerBatch.cols) ∧
    (∀ r ∈ twoLedgerBatch.rows, (rowVal r "NAME").isSome = true) ∧
    ((twoLedgerBatch.rows.map (fun r => rowVal r "NAME")).Nodup) ∧
    ((upsert_dataframe "2024-01-02" twoLedgerBatch "Ledger"
        (upsert_dataframe "2024-01-01" twoLedgerBatch "Ledger" []).1).1 =
      (upsert_dataframe "2024-01-01" twoLedgerBatch "Ledger" []).1 ∧
     (upsert_dataframe "2024-01-02" twoLedgerBatch "Ledger"
        (upsert_dataframe "2024-01-01" twoLedgerBatch "Ledger" []).1).2.countP
       isUpdateEff = 0) :=
  ⟨by decide, by decide, by decide,
   upsert_idempotent_of_distinct_names "2024-01-01" "2024-01-02" "Ledger"
     twoLedgerBatch [] (by decide) (by decide) (by decide)⟩

end TallySync
